import Mathlib

/-!
Shallow embedding of the smallweb-gitlog service (`src/mod.ts`): the commit
data model, the log formatter `formatGitLog`, the `/api/:repo` request
handler, the `onError` boundary, the CLI entry `run`, and the query-string
logic that selects oneline mode.

External collaborators are modelled as parameters or by their observable
output: ANSI colouring (library `ansi-colors`) is modelled by the escape
codes it emits, guarded by its runtime `enabled` flag (an environment
dependent setting); date rendering (`Date.toLocaleDateString` on
`new Date(timestamp * 1000)`) is an environment/locale dependent function
`fmtDate : Int → String`; the commit source (`isomorphic-git`'s `git.log`)
is a function from the resolved directory to either a commit list or the
thrown error's message.
-/

/-- Author metadata of a commit, as delivered by `git.log` (`commit.author`). -/
structure GitAuthor where
  name : String
  email : String
  timestamp : Int
  deriving DecidableEq, Repr

/-- Commit payload (`GitCommit` in `src/mod.ts`). -/
structure GitCommit where
  author : GitAuthor
  message : String
  deriving DecidableEq, Repr

/-- One entry of the log (`GitLogEntry` in `src/mod.ts`): payload plus object id. -/
structure GitLogEntry where
  commit : GitCommit
  oid : String
  deriving DecidableEq, Repr

/-- Wrapping behaviour of an `ansi-colors` style: when colouring is enabled the
text is wrapped in the open/close escape codes, otherwise returned unchanged. -/
def style (enabled : Bool) (oc cc s : String) : String :=
  if enabled then oc ++ s ++ cc else s

/-- Model of `colors.yellow`. -/
def yellow (enabled : Bool) (s : String) : String :=
  style enabled "\x1b[33m" "\x1b[39m" s

/-- Model of `colors.white`. -/
def white (enabled : Bool) (s : String) : String :=
  style enabled "\x1b[37m" "\x1b[39m" s

/-- Model of `colors.cyan`. -/
def cyan (enabled : Bool) (s : String) : String :=
  style enabled "\x1b[36m" "\x1b[39m" s

/-- Model of `colors.green`. -/
def green (enabled : Bool) (s : String) : String :=
  style enabled "\x1b[32m" "\x1b[39m" s

/-- Model of `colors.red`. -/
def red (enabled : Bool) (s : String) : String :=
  style enabled "\x1b[31m" "\x1b[39m" s

/-- Model of JS `Array.prototype.join(sep)`. -/
def jsJoin (sep : String) : List String → String
  | [] => ""
  | [x] => x
  | x :: y :: t => x ++ sep ++ jsJoin sep (y :: t)

/-- Split a character list at a separator character; the list of segments is
never empty, and models JS `String.prototype.split(sep)` (single-character
separator) at the character level. -/
def splitOnChar (sep : Char) : List Char → List (List Char)
  | [] => [[]]
  | c :: cs =>
    if c = sep then [] :: splitOnChar sep cs
    else
      match splitOnChar sep cs with
      | [] => [[c]]
      | h :: t => (c :: h) :: t

/-- Model of JS `s.split("\n")`: the newline-separated segments of a string. -/
def splitLines (s : String) : List String :=
  (splitOnChar '\n' s.data).map String.mk

/-- Model of JS `s.split("\n")[0]`: the text up to the first newline. -/
def firstLine (s : String) : String :=
  (splitLines s).headD ""

/-- Model of JS `s.slice(0, n)`: the first `n` characters of a string. -/
def jsSlice (s : String) (n : Nat) : String :=
  ⟨s.data.take n⟩

/-- Model of JS `s.trim()`: strip whitespace from both ends of the string
(the whitespace characters relevant to git messages: space, tab, CR, LF). -/
def jsTrim (s : String) : String :=
  ⟨List.rdropWhile Char.isWhitespace (s.data.dropWhile Char.isWhitespace)⟩

/-- Oneline rendering of one commit (`src/mod.ts` lines 64-68): coloured short
sha, a space, coloured first message line. -/
def onelineEntry (enabled : Bool) (e : GitLogEntry) : String :=
  yellow enabled (jsSlice e.oid 7) ++ " " ++ white enabled (firstLine e.commit.message)

/-- Verbose rendering of one commit (`src/mod.ts` lines 85-92): the six-element
array joined by newline. -/
def verboseEntry (fmtDate : Int → String) (enabled : Bool) (e : GitLogEntry) : String :=
  jsJoin "\n"
    [ yellow enabled ("commit " ++ e.oid)
    , "Author: " ++ cyan enabled e.commit.author.name ++ " <" ++
        cyan enabled e.commit.author.email ++ ">"
    , "Date:   " ++ green enabled (fmtDate e.commit.author.timestamp)
    , ""
    , "    " ++ white enabled (jsTrim e.commit.message)
    , "" ]

/-- Embedding of `formatGitLog(commits, oneline)` from `src/mod.ts`. -/
def formatGitLog (fmtDate : Int → String) (enabled : Bool)
    (commits : List GitLogEntry) (oneline : Bool) : String :=
  if oneline then jsJoin "\n" (commits.map (onelineEntry enabled))
  else jsJoin "\n" (commits.map (verboseEntry fmtDate enabled))

/-- Model of `path.join(root, repo)`; normalisation of the joined path is
irrelevant to the claims, only the dependence on both components matters. -/
def pathJoin (a b : String) : String :=
  a ++ "/" ++ b

/-- Model of query-string parsing as performed by the HTTP layer
(URLSearchParams semantics): `&`-separated parts, each split at its first
`=`; a part with no `=` has the empty string as value; empty parts are
dropped. -/
def parseQuery (qs : String) : List (String × String) :=
  (splitOnChar '&' qs.data).filterMap fun part =>
    if part = [] then none
    else
      let k := part.takeWhile fun c => c ≠ '='
      some (⟨k⟩, ⟨(part.drop k.length).drop 1⟩)

/-- Embedding of the oneline-mode test `c.req.query("oneline") !== undefined`
(`src/mod.ts` line 38): the query has an `oneline` parameter at all. -/
def queryOneline (q : List (String × String)) : Bool :=
  (q.lookup "oneline").isSome

/-- Observable part of an HTTP response: status code and text body. -/
structure HttpResponse where
  status : Nat
  body : String
  deriving DecidableEq, Repr

/-- Embedding of the `GET /api/:repo` route handler (`src/mod.ts` lines 33-45):
resolve the directory, call the commit source, format on success (status 200,
the `c.text` default), or answer 404 with the red error text on failure.  The
`error instanceof Error` test collapses into the source returning the thrown
error's message. -/
def apiHandler (fmtDate : Int → String) (enabled : Bool) (root : String)
    (src : String → Except String (List GitLogEntry)) (repo qs : String) : HttpResponse :=
  match src (pathJoin root repo) with
  | .ok commits =>
      ⟨200, formatGitLog fmtDate enabled commits (queryOneline (parseQuery qs))⟩
  | .error msg => ⟨404, red enabled ("Error: " ++ msg)⟩

/-- Observable outcome of a CLI invocation: the lines printed to stdout, the
lines printed to stderr, and the process exit code. -/
structure CliOutcome where
  stdout : List String
  stderr : List String
  exitCode : Nat
  deriving DecidableEq, Repr

/-- Usage text printed by `run` when no argument is given. -/
def usageMessage : String :=
  "No repository specified. Usage: mod.ts <repo-name> [--oneline]"

/-- Embedding of the CLI entry `run(args)` (`src/mod.ts` lines 215-236):
missing argument prints usage on stderr and exits 1; otherwise the commit
source is consulted and either the formatted log goes to stdout (exit 0) or
the red error text goes to stderr (exit 1). -/
def run (fmtDate : Int → String) (enabled : Bool) (root : String)
    (src : String → Except String (List GitLogEntry)) (args : List String) : CliOutcome :=
  match args with
  | [] => ⟨[], [usageMessage], 1⟩
  | repo :: rest =>
    let oneline := (repo :: rest).contains "--oneline"
    match src (pathJoin root repo) with
    | .ok commits => ⟨[formatGitLog fmtDate enabled commits oneline], [], 0⟩
    | .error msg => ⟨[], [red enabled ("Error: " ++ msg)], 1⟩

/-- Body shape of the JSON answer produced by the `onError` boundary. -/
structure ErrorJson where
  success : Bool
  message : String
  status : Nat
  deriving DecidableEq, Repr

/-- Observable outcome of the `onError` boundary: what is logged, the HTTP
status, and the JSON body. -/
structure ErrorResponse where
  logged : List String
  status : Nat
  body : ErrorJson
  deriving DecidableEq, Repr

/-- Embedding of the `.onError` handler (`src/mod.ts` lines 50-59): log the
error, answer 500 with the JSON body; `err.message || 'Internal Server Error'`
falls back exactly when the message is the empty string. -/
def onError (errMessage : String) : ErrorResponse :=
  { logged := ["Error occurred: " ++ errMessage]
  , status := 500
  , body :=
    { success := false
    , message := if errMessage = "" then "Internal Server Error" else errMessage
    , status := 500 } }

/-- Number of occurrences of a (nonempty) pattern in a character list, one per
starting position. -/
def countOccs (pat : List Char) : List Char → Nat
  | [] => 0
  | c :: cs => (if pat.isPrefixOf (c :: cs) then 1 else 0) + countOccs pat cs

/-- Modelled from the spec: the spec's oneline summary line, whose first
message line is "trimmed of trailing carriage return if present".  Stated for
comparison with the code's `onelineEntry`, which keeps the carriage return. -/
def specOnelineSummary (e : GitLogEntry) : String :=
  let f := firstLine e.commit.message
  jsSlice e.oid 7 ++ " " ++ (if f.data.getLast? = some '\r' then ⟨f.data.dropLast⟩ else f)

theorem splitOnChar_ne_nil (sep : Char) : ∀ l : List Char, splitOnChar sep l ≠ [] := by
  intro l
  induction l with
  | nil => simp [splitOnChar]
  | cons c cs ih =>
    by_cases h : c = sep
    · simp [splitOnChar, h]
    · simp only [splitOnChar, if_neg h]
      cases hs : splitOnChar sep cs with
      | nil => simp
      | cons a t => simp

theorem splitOnChar_cons_of_ne (sep c : Char) (cs : List Char) (h : c ≠ sep) :
    splitOnChar sep (c :: cs) =
      (c :: (splitOnChar sep cs).headD []) :: (splitOnChar sep cs).tail := by
  simp only [splitOnChar, if_neg h]
  cases hs : splitOnChar sep cs with
  | nil => exact absurd hs (splitOnChar_ne_nil sep cs)
  | cons a t => simp

theorem splitOnChar_append_sep (sep : Char) (a b : List Char) :
    splitOnChar sep (a ++ sep :: b) = splitOnChar sep a ++ splitOnChar sep b := by
  induction a with
  | nil => simp [splitOnChar]
  | cons c cs ih =>
    by_cases h : c = sep
    · subst h
      simp [splitOnChar, ih]
    · rw [List.cons_append, splitOnChar_cons_of_ne sep c _ h, ih,
        splitOnChar_cons_of_ne sep c cs h]
      cases hs : splitOnChar sep cs with
      | nil => exact absurd hs (splitOnChar_ne_nil sep cs)
      | cons x t => simp

theorem splitOnChar_of_not_mem (sep : Char) (l : List Char) (h : sep ∉ l) :
    splitOnChar sep l = [l] := by
  induction l with
  | nil => rfl
  | cons c cs ih =>
    have hc : c ≠ sep := fun hc => h (hc ▸ List.mem_cons_self c cs)
    have hcs : sep ∉ cs := fun hm => h (List.mem_cons_of_mem c hm)
    rw [splitOnChar_cons_of_ne sep c cs hc, ih hcs]
    simp

theorem splitOnChar_headD_takeWhile (sep : Char) : ∀ l : List Char,
    (splitOnChar sep l).headD [] = l.takeWhile (fun c => c ≠ sep) := by
  intro l
  induction l with
  | nil => rfl
  | cons c cs ih =>
    by_cases h : c = sep
    · subst h
      simp [splitOnChar, List.takeWhile]
    · rw [splitOnChar_cons_of_ne sep c cs h]
      simp only [List.headD_cons, List.takeWhile_cons]
      rw [if_pos (by simp [h])]
      exact congrArg (c :: .) ih

theorem splitLines_ne_nil (s : String) : splitLines s ≠ [] := by
  unfold splitLines
  intro h
  exact splitOnChar_ne_nil '\n' s.data (List.map_eq_nil_iff.mp h)

theorem splitLines_append_newline (a b : String) :
    splitLines (a ++ "\n" ++ b) = splitLines a ++ splitLines b := by
  unfold splitLines
  rw [String.data_append, String.data_append]
  have hd : a.data ++ "\n".data ++ b.data = a.data ++ '\n' :: b.data := by
    simp
  rw [hd, splitOnChar_append_sep]
  simp

theorem splitLines_of_no_newline (s : String) (h : '\n' ∉ s.data) :
    splitLines s = [s] := by
  unfold splitLines
  rw [splitOnChar_of_not_mem '\n' s.data h]
  rfl

theorem splitLines_empty_string : splitLines "" = [""] := rfl

theorem splitLines_jsJoin (l : List String) (h : l ≠ []) :
    splitLines (jsJoin "\n" l) = (l.map splitLines).flatten := by
  induction l with
  | nil => exact absurd rfl h
  | cons x t ih =>
    cases t with
    | nil => simp [jsJoin]
    | cons y t2 =>
      rw [show jsJoin "\n" (x :: y :: t2) = x ++ "\n" ++ jsJoin "\n" (y :: t2) from rfl,
        splitLines_append_newline, ih (by simp)]
      simp

theorem firstLine_data (s : String) :
    (firstLine s).data = s.data.takeWhile fun c => c ≠ '\n' := by
  unfold firstLine splitLines
  rw [← splitOnChar_headD_takeWhile '\n' s.data]
  cases hs : splitOnChar '\n' s.data with
  | nil => exact absurd hs (splitOnChar_ne_nil '\n' s.data)
  | cons a t => simp

theorem firstLine_no_newline (s : String) : '\n' ∉ (firstLine s).data := by
  rw [firstLine_data]
  intro hm
  have := List.mem_takeWhile_imp hm
  simp at this

theorem flatten_map_singleton {α β : Type} (f : α → β) (l : List α) :
    (l.map fun x => [f x]).flatten = l.map f := by
  induction l with
  | nil => rfl
  | cons a t ih => simp [ih]

theorem data_infix_jsJoin (sep : String) : ∀ l : List String, ∀ x : String, x ∈ l →
    x.data <:+: (jsJoin sep l).data := by
  intro l
  induction l with
  | nil =>
    intro x hx
    simp at hx
  | cons a t ih =>
    intro x hx
    cases t with
    | nil =>
      rw [List.mem_singleton.mp hx]
      exact ⟨[], [], by simp [jsJoin]⟩
    | cons b t2 =>
      rcases List.mem_cons.mp hx with h | h
      · subst h
        exact ⟨[], sep.data ++ (jsJoin sep (b :: t2)).data, by
          simp [jsJoin, String.data_append]⟩
      · obtain ⟨p, q, hpq⟩ := ih x h
        exact ⟨(a.data ++ sep.data) ++ p, q, by
          simp only [jsJoin, String.data_append, List.append_assoc]
          rw [← List.append_assoc p x.data q, hpq]⟩

theorem onelineEntry_disabled (e : GitLogEntry) :
    onelineEntry false e = jsSlice e.oid 7 ++ " " ++ firstLine e.commit.message := rfl

theorem jsSlice_data (s : String) (n : Nat) : (jsSlice s n).data = s.data.take n := rfl

theorem onelineEntry_disabled_no_newline (e : GitLogEntry) (h : '\n' ∉ e.oid.data) :
    '\n' ∉ (onelineEntry false e).data := by
  rw [onelineEntry_disabled, String.data_append, String.data_append]
  intro hm
  rcases List.mem_append.mp hm with h1 | h2
  · rcases List.mem_append.mp h1 with ha | hb
    · exact h (List.take_subset 7 _ (by simpa [jsSlice_data] using ha))
    · simp at hb
  · exact firstLine_no_newline _ h2

theorem verboseEntry_disabled (d : Int → String) (e : GitLogEntry) :
    verboseEntry d false e = jsJoin "\n"
      [ "commit " ++ e.oid
      , "Author: " ++ e.commit.author.name ++ " <" ++ e.commit.author.email ++ ">"
      , "Date:   " ++ d e.commit.author.timestamp
      , ""
      , "    " ++ jsTrim e.commit.message
      , "" ] := rfl

theorem verboseEntry_disabled_splitLines (d : Int → String) (e : GitLogEntry)
    (hoid : '\n' ∉ e.oid.data) (hname : '\n' ∉ e.commit.author.name.data)
    (hemail : '\n' ∉ e.commit.author.email.data)
    (hdate : '\n' ∉ (d e.commit.author.timestamp).data) :
    splitLines (verboseEntry d false e) =
      [ "commit " ++ e.oid
      , "Author: " ++ e.commit.author.name ++ " <" ++ e.commit.author.email ++ ">"
      , "Date:   " ++ d e.commit.author.timestamp
      , "" ] ++ splitLines ("    " ++ jsTrim e.commit.message) ++ [""] := by
  have hA : '\n' ∉ ("commit " ++ e.oid).data := by
    rw [String.data_append]
    intro hm
    rcases List.mem_append.mp hm with h | h
    · exact absurd h (by decide)
    · exact hoid h
  have hB : '\n' ∉ ("Author: " ++ e.commit.author.name ++ " <" ++
      e.commit.author.email ++ ">").data := by
    intro hm
    simp only [String.data_append, List.mem_append] at hm
    rcases hm with ((((h | h) | h) | h) | h)
    · exact absurd h (by decide)
    · exact hname h
    · exact absurd h (by decide)
    · exact hemail h
    · exact absurd h (by decide)
  have hC : '\n' ∉ ("Date:   " ++ d e.commit.author.timestamp).data := by
    rw [String.data_append]
    intro hm
    rcases List.mem_append.mp hm with h | h
    · exact absurd h (by decide)
    · exact hdate h
  rw [verboseEntry_disabled, splitLines_jsJoin _ (by simp)]
  rw [show List.map splitLines
      [ "commit " ++ e.oid
      , "Author: " ++ e.commit.author.name ++ " <" ++ e.commit.author.email ++ ">"
      , "Date:   " ++ d e.commit.author.timestamp
      , ""
      , "    " ++ jsTrim e.commit.message
      , "" ] =
      [ splitLines ("commit " ++ e.oid)
      , splitLines ("Author: " ++ e.commit.author.name ++ " <" ++ e.commit.author.email ++ ">")
      , splitLines ("Date:   " ++ d e.commit.author.timestamp)
      , [""]
      , splitLines ("    " ++ jsTrim e.commit.message)
      , [""] ] from by simp [splitLines_empty_string]]
  rw [splitLines_of_no_newline _ hA, splitLines_of_no_newline _ hB,
    splitLines_of_no_newline _ hC]
  simp

theorem lookup_isSome_iff (q : List (String × String)) (a : String) :
    (q.lookup a).isSome = true ↔ a ∈ q.map Prod.fst := by
  induction q with
  | nil => simp [List.lookup]
  | cons x t ih =>
    obtain ⟨k, v⟩ := x
    by_cases h : a = k
    · subst h
      simp [List.lookup]
    · have hbeq : (a == k) = false := by
        simp [h]
      simp [List.lookup, hbeq, ih, h]

/-- Claim C1 (amended): in oneline mode, with colouring disabled, the output has
exactly one line per commit, consisting of the first 7 characters of the object
id, a single space, and the first line of the message (text up to the first
newline, taken verbatim: a trailing carriage return is kept); the lines are
joined by a single newline and no trailing newline is appended. -/
theorem claim1_am (d : Int → String) (commits : List GitLogEntry)
    (hne : commits ≠ []) (hoid : ∀ e ∈ commits, '\n' ∉ e.oid.data) :
    splitLines (formatGitLog d false commits true) =
      commits.map fun e => jsSlice e.oid 7 ++ " " ++ firstLine e.commit.message := by
  show splitLines (jsJoin "\n" (commits.map (onelineEntry false))) = _
  rw [splitLines_jsJoin _ (by simpa using hne), List.map_map]
  have hcg : ∀ e ∈ commits, (splitLines ∘ onelineEntry false) e =
      [jsSlice e.oid 7 ++ " " ++ firstLine e.commit.message] := by
    intro e he
    show splitLines (onelineEntry false e) = _
    rw [splitLines_of_no_newline _ (onelineEntry_disabled_no_newline e (hoid e he)),
      onelineEntry_disabled]
  rw [List.map_congr_left hcg]
  exact flatten_map_singleton _ _

/-- Claim C1, witness: the amended theorem applied to a concrete commit. -/
theorem claim1_am_witness :
    splitLines (formatGitLog (fun _ => "") false
      ([⟨⟨⟨"Ada", "ada@x", 7⟩, "Add feature\ndetails"⟩, "0123456abcdef"⟩] : List GitLogEntry) true) =
      ([⟨⟨⟨"Ada", "ada@x", 7⟩, "Add feature\ndetails"⟩, "0123456abcdef"⟩] : List GitLogEntry).map
        (fun e => jsSlice e.oid 7 ++ " " ++ firstLine e.commit.message) :=
  claim1_am _ _ (by decide) (by decide)

/-- Claim C1, counterexample: for a commit whose message first line ends in a
carriage return, the code emits the line with the "\r" kept, which differs from
the claim's CR-stripped line (`specOnelineSummary`). -/
theorem claim1_cx :
    formatGitLog (fun _ => "") false
      ([⟨⟨⟨"n", "e", 0⟩, "Hi\r\nrest"⟩, "aaaaaaaaaaaaaaaaaaaaaaaaaaaaaaaaaaaaaaaa"⟩] :
        List GitLogEntry) true = "aaaaaaa Hi\r" ∧
    specOnelineSummary ⟨⟨⟨"n", "e", 0⟩, "Hi\r\nrest"⟩,
      "aaaaaaaaaaaaaaaaaaaaaaaaaaaaaaaaaaaaaaaa"⟩ = "aaaaaaa Hi" ∧
    ("aaaaaaa Hi\r" : String) ≠ "aaaaaaa Hi" :=
  ⟨by decide, by decide, by decide⟩

/-- Claim C2: in verbose mode, with colouring disabled, the output lines are
exactly the concatenation, commit by commit with no extra separator, of each
commit's block: `commit <objectId>`, `Author: <name> <<email>>`,
`Date:   <formatted timestamp>`, an empty line, the trimmed message prefixed
once with 4 spaces (spanning its own lines), and a trailing empty line. -/
theorem claim2_blocks (d : Int → String) (commits : List GitLogEntry)
    (hne : commits ≠ [])
    (hdate : ∀ t : Int, '\n' ∉ (d t).data)
    (hfields : ∀ e ∈ commits, '\n' ∉ e.oid.data ∧ '\n' ∉ e.commit.author.name.data ∧
      '\n' ∉ e.commit.author.email.data) :
    splitLines (formatGitLog d false commits false) =
      (commits.map fun e =>
        [ "commit " ++ e.oid
        , "Author: " ++ e.commit.author.name ++ " <" ++ e.commit.author.email ++ ">"
        , "Date:   " ++ d e.commit.author.timestamp
        , "" ] ++ splitLines ("    " ++ jsTrim e.commit.message) ++ [""]).flatten := by
  show splitLines (jsJoin "\n" (commits.map (verboseEntry d false))) = _
  rw [splitLines_jsJoin _ (by simpa using hne), List.map_map]
  congr 1
  apply List.map_congr_left
  intro e he
  exact verboseEntry_disabled_splitLines d e (hfields e he).1 (hfields e he).2.1
    (hfields e he).2.2 (hdate _)

/-- Claim C2, witness: the block-structure theorem applied to a concrete commit
with a multi-line message. -/
theorem claim2_blocks_witness :
    splitLines (formatGitLog (fun _ => "Thu Jan 01 1970") false
      ([⟨⟨⟨"Ada", "ada@x", 7⟩, "Add feature\n\ndetails\n"⟩, "0123456abcdef"⟩] :
        List GitLogEntry) false) =
      (([⟨⟨⟨"Ada", "ada@x", 7⟩, "Add feature\n\ndetails\n"⟩, "0123456abcdef"⟩] :
        List GitLogEntry).map fun e =>
        [ "commit " ++ e.oid
        , "Author: " ++ e.commit.author.name ++ " <" ++ e.commit.author.email ++ ">"
        , "Date:   " ++ (fun _ : Int => "Thu Jan 01 1970") e.commit.author.timestamp
        , "" ] ++ splitLines ("    " ++ jsTrim e.commit.message) ++ [""]).flatten :=
  claim2_blocks _ _ (by decide) (fun t => by decide) (by decide)

/-- Claim C3: a single commit with message "Initial commit\n" and an object id
whose first 7 characters are "abc1234" (40 characters long) formats in oneline
mode to exactly "abc1234 Initial commit". -/
theorem claim3_scenario1 (d : Int → String) (name email : String) (t : Int) (oid : String)
    (h7 : jsSlice oid 7 = "abc1234") (_h40 : oid.data.length = 40) :
    formatGitLog d false [⟨⟨⟨name, email, t⟩, "Initial commit\n"⟩, oid⟩] true =
      "abc1234 Initial commit" := by
  show jsJoin "\n" [onelineEntry false ⟨⟨⟨name, email, t⟩, "Initial commit\n"⟩, oid⟩] = _
  rw [show jsJoin "\n" [onelineEntry false ⟨⟨⟨name, email, t⟩, "Initial commit\n"⟩, oid⟩] =
    onelineEntry false ⟨⟨⟨name, email, t⟩, "Initial commit\n"⟩, oid⟩ from rfl]
  rw [onelineEntry_disabled]
  show jsSlice oid 7 ++ " " ++ firstLine "Initial commit\n" = _
  rw [h7, show firstLine "Initial commit\n" = "Initial commit" from by decide]
  decide

/-- Claim C3, witness: the scenario theorem applied to a concrete 40-character
object id beginning with abc1234. -/
theorem claim3_witness :
    formatGitLog (fun _ => "") false
      ([⟨⟨⟨"Ada", "ada@x", 7⟩, "Initial commit\n"⟩,
        "abc12340123456789abcdef0123456789abcdef0"⟩] : List GitLogEntry) true =
      "abc1234 Initial commit" :=
  claim3_scenario1 _ "Ada" "ada@x" 7 _ (by decide) (by decide)

theorem red_error_contains (en : Bool) (m : String) :
    (∃ p s, red en ("Error: " ++ m) = p ++ m ++ s) ∧
    (∃ p s, red en ("Error: " ++ m) = p ++ "Error" ++ s) := by
  have hE : ("Error: " : String) = "Error" ++ ": " := by decide
  have h0 : ("" : String) ++ "Error" = "Error" := by decide
  have hm : ("\x1b[31m" : String) ++ "Error: " = "\x1b[31mError: " := by decide
  cases en
  · refine ⟨⟨"Error: ", "", by simp [red, style]⟩, ⟨"", ": " ++ m, ?_⟩⟩
    show "Error: " ++ m = "" ++ "Error" ++ (": " ++ m)
    rw [h0, hE, String.append_assoc]
  · refine ⟨⟨"\x1b[31mError: ", "\x1b[39m", ?_⟩,
      ⟨"\x1b[31m", ": " ++ m ++ "\x1b[39m", ?_⟩⟩
    · show "\x1b[31m" ++ ("Error: " ++ m) ++ "\x1b[39m" = "\x1b[31mError: " ++ m ++ "\x1b[39m"
      rw [← String.append_assoc "\x1b[31m" "Error: " m, hm]
    · show "\x1b[31m" ++ ("Error: " ++ m) ++ "\x1b[39m" =
        "\x1b[31m" ++ "Error" ++ (": " ++ m ++ "\x1b[39m")
      simp only [String.append_assoc]
      rw [hE]
      simp only [String.append_assoc]

/-- Claim C4: when the commit source fails, the API handler answers 404 with a
body containing the underlying error's message and the word "Error"; the CLI
path for the same failure prints nothing to stdout, prints the error message to
stderr, and exits non-zero. -/
theorem claim4_failure (d : Int → String) (en : Bool) (root : String)
    (src : String → Except String (List GitLogEntry)) (repo qs msg : String)
    (rest : List String)
    (hsrc : src (pathJoin root repo) = Except.error msg) :
    ((apiHandler d en root src repo qs).status = 404 ∧
      (∃ p s, (apiHandler d en root src repo qs).body = p ++ msg ++ s) ∧
      (∃ p s, (apiHandler d en root src repo qs).body = p ++ "Error" ++ s)) ∧
    ((run d en root src (repo :: rest)).stdout = [] ∧
      (run d en root src (repo :: rest)).exitCode ≠ 0 ∧
      ∃ p s, (run d en root src (repo :: rest)).stderr = [p ++ msg ++ s]) := by
  have hsub := red_error_contains en msg
  have hapi : apiHandler d en root src repo qs = ⟨404, red en ("Error: " ++ msg)⟩ := by
    simp only [apiHandler, hsrc]
  have hrun : run d en root src (repo :: rest) = ⟨[], [red en ("Error: " ++ msg)], 1⟩ := by
    simp only [run, hsrc]
  rw [hapi, hrun]
  obtain ⟨p, s, hp⟩ := hsub.1
  refine ⟨⟨rfl, hsub.1, hsub.2⟩, rfl, by simp, ⟨p, s, ?_⟩⟩
  show [red en ("Error: " ++ msg)] = [p ++ msg ++ s]
  rw [hp]

/-- Claim C4, witness: the failure theorem applied to a concrete failing
commit source. -/
theorem claim4_witness :
    ((apiHandler (fun _ => "") false "" (fun _ => Except.error "ENOENT: no such file") "r" "").status = 404 ∧
      (∃ p s, (apiHandler (fun _ => "") false "" (fun _ => Except.error "ENOENT: no such file") "r" "").body =
        p ++ "ENOENT: no such file" ++ s) ∧
      (∃ p s, (apiHandler (fun _ => "") false "" (fun _ => Except.error "ENOENT: no such file") "r" "").body =
        p ++ "Error" ++ s)) ∧
    ((run (fun _ => "") false "" (fun _ => Except.error "ENOENT: no such file") ["r"]).stdout = [] ∧
      (run (fun _ => "") false "" (fun _ => Except.error "ENOENT: no such file") ["r"]).exitCode ≠ 0 ∧
      ∃ p s, (run (fun _ => "") false "" (fun _ => Except.error "ENOENT: no such file") ["r"]).stderr =
        [p ++ "ENOENT: no such file" ++ s]) :=
  claim4_failure (fun _ => "") false "" (fun _ => Except.error "ENOENT: no such file")
    "r" "" "ENOENT: no such file" [] rfl

/-- Claim C5: the `onError` boundary logs the error and answers HTTP 500 with
the JSON body success: false, status: 500, and the error's message (or the
fallback text when the message is empty). -/
theorem claim5_onError (m : String) :
    (onError m).status = 500 ∧ (onError m).body.success = false ∧
    (onError m).body.status = 500 ∧ (onError m).logged ≠ [] ∧
    (m ≠ "" → (onError m).body.message = m) := by
  refine ⟨rfl, rfl, rfl, by simp [onError], fun hm => ?_⟩
  simp [onError, hm]

/-- Claim C5, witness: the boundary theorem applied to a concrete error
message. -/
theorem claim5_witness :
    (onError "boom").status = 500 ∧ (onError "boom").body.success = false ∧
    (onError "boom").body.status = 500 ∧ (onError "boom").logged ≠ [] ∧
    (onError "boom").body.message = "boom" :=
  ⟨(claim5_onError "boom").1, (claim5_onError "boom").2.1, (claim5_onError "boom").2.2.1,
    (claim5_onError "boom").2.2.2.1, (claim5_onError "boom").2.2.2.2 (by decide)⟩

/-- Claim C6: the CLI invoked with an empty argument list prints nothing to
stdout, prints the usage message to stderr, and exits with a non-zero code. -/
theorem claim6_cli_no_args (d : Int → String) (en : Bool) (root : String)
    (src : String → Except String (List GitLogEntry)) :
    (run d en root src []).stdout = [] ∧
    (run d en root src []).stderr = [usageMessage] ∧
    (run d en root src []).exitCode ≠ 0 :=
  ⟨rfl, rfl, by simp [run]⟩

/-- Claim C7, counterexample: a commit whose message itself contains the text
`commit <fullId>` makes the substring occur twice in the verbose body, so it
does not occur exactly once per commit. -/
theorem claim7_cx :
    countOccs ("commit " ++ "ab").data
      (formatGitLog (fun _ => "D") false
        ([⟨⟨⟨"n", "e", 0⟩, "commit ab"⟩, "ab"⟩] : List GitLogEntry) false).data = 2 ∧
    countOccs ("commit " ++ "ab").data
      (formatGitLog (fun _ => "D") false
        ([⟨⟨⟨"n", "e", 0⟩, "commit ab"⟩, "ab"⟩] : List GitLogEntry) false).data ≠ 1 :=
  ⟨by decide, by decide⟩

/-- Claim C7 (amended): in verbose mode the body contains the substring
`commit <fullId>` at least once for every commit in the list. -/
theorem claim7_am (d : Int → String) (en : Bool) (commits : List GitLogEntry)
    (e : GitLogEntry) (he : e ∈ commits) :
    ("commit " ++ e.oid).data <:+: (formatGitLog d en commits false).data := by
  have h1 : ("commit " ++ e.oid).data <:+: (yellow en ("commit " ++ e.oid)).data := by
    cases en
    · exact ⟨[], [], by simp [yellow, style]⟩
    · exact ⟨"\x1b[33m".data, "\x1b[39m".data, by simp [yellow, style, String.data_append]⟩
  have h2 : (yellow en ("commit " ++ e.oid)).data <:+: (verboseEntry d en e).data := by
    unfold verboseEntry
    exact data_infix_jsJoin "\n" _ _ (by simp)
  have h3 : (verboseEntry d en e).data <:+:
      (jsJoin "\n" (commits.map (verboseEntry d en))).data :=
    data_infix_jsJoin "\n" _ _ (List.mem_map_of_mem _ he)
  exact h1.trans (h2.trans h3)

/-- Claim C7, witness: the containment theorem applied to a concrete commit. -/
theorem claim7_am_witness :
    ("commit " ++ "ab").data <:+:
      (formatGitLog (fun _ => "D") false
        ([⟨⟨⟨"n", "e", 0⟩, "x"⟩, "ab"⟩] : List GitLogEntry) false).data :=
  claim7_am (fun _ => "D") false _ ⟨⟨⟨"n", "e", 0⟩, "x"⟩, "ab"⟩ (by decide)

/-- Claim C8: for both rendering modes the output lines are the concatenation,
in input order, of the lines rendered for each commit: the formatter never
re-sorts the commit list. -/
theorem claim8_order (d : Int → String) (en : Bool) (commits : List GitLogEntry)
    (hne : commits ≠ []) :
    splitLines (formatGitLog d en commits true) =
      (commits.map fun e => splitLines (onelineEntry en e)).flatten ∧
    splitLines (formatGitLog d en commits false) =
      (commits.map fun e => splitLines (verboseEntry d en e)).flatten := by
  constructor
  · show splitLines (jsJoin "\n" (commits.map (onelineEntry en))) = _
    rw [splitLines_jsJoin _ (by simpa using hne), List.map_map]
    rfl
  · show splitLines (jsJoin "\n" (commits.map (verboseEntry d en))) = _
    rw [splitLines_jsJoin _ (by simpa using hne), List.map_map]
    rfl

/-- Claim C8, witness: the order theorem applied to a concrete two-commit
list. -/
theorem claim8_order_witness :
    (splitLines (formatGitLog (fun _ => "D") false
        ([⟨⟨⟨"a", "a@x", 1⟩, "first"⟩, "1111111aa"⟩,
          ⟨⟨⟨"b", "b@x", 2⟩, "second"⟩, "2222222bb"⟩] : List GitLogEntry) true) =
      (([⟨⟨⟨"a", "a@x", 1⟩, "first"⟩, "1111111aa"⟩,
          ⟨⟨⟨"b", "b@x", 2⟩, "second"⟩, "2222222bb"⟩] : List GitLogEntry).map
        fun e => splitLines (onelineEntry false e)).flatten) ∧
    (splitLines (formatGitLog (fun _ => "D") false
        ([⟨⟨⟨"a", "a@x", 1⟩, "first"⟩, "1111111aa"⟩,
          ⟨⟨⟨"b", "b@x", 2⟩, "second"⟩, "2222222bb"⟩] : List GitLogEntry) false) =
      (([⟨⟨⟨"a", "a@x", 1⟩, "first"⟩, "1111111aa"⟩,
          ⟨⟨⟨"b", "b@x", 2⟩, "second"⟩, "2222222bb"⟩] : List GitLogEntry).map
        fun e => splitLines (verboseEntry (fun _ => "D") false e)).flatten) :=
  claim8_order (fun _ => "D") false _ (by decide)

/-- Claim C9: formatting the empty commit list returns the empty string in
both rendering modes. -/
theorem claim9_empty (d : Int → String) (en : Bool) (oneline : Bool) :
    formatGitLog d en [] oneline = "" := by
  cases oneline <;> rfl

/-- Claim C10: oneline mode is selected exactly when the query string contains
an `oneline` parameter at all, regardless of its value: `?oneline=false`,
`?oneline=` and `?oneline` all select oneline mode, and absence of the
parameter selects verbose mode. -/
theorem claim10_oneline_query (d : Int → String) (en : Bool) (root : String)
    (src : String → Except String (List GitLogEntry)) (repo : String)
    (commits : List GitLogEntry) (hsrc : src (pathJoin root repo) = Except.ok commits) :
    (apiHandler d en root src repo "oneline=false").body = formatGitLog d en commits true ∧
    (apiHandler d en root src repo "oneline=").body = formatGitLog d en commits true ∧
    (apiHandler d en root src repo "oneline").body = formatGitLog d en commits true ∧
    (apiHandler d en root src repo "").body = formatGitLog d en commits false ∧
    ∀ qs : String, queryOneline (parseQuery qs) = true ↔
      "oneline" ∈ (parseQuery qs).map Prod.fst := by
  have happ : ∀ qs : String, (apiHandler d en root src repo qs).body =
      formatGitLog d en commits (queryOneline (parseQuery qs)) := by
    intro qs
    simp only [apiHandler, hsrc]
  refine ⟨?_, ?_, ?_, ?_, fun qs => lookup_isSome_iff (parseQuery qs) "oneline"⟩
  · rw [happ, show queryOneline (parseQuery "oneline=false") = true from by decide]
  · rw [happ, show queryOneline (parseQuery "oneline=") = true from by decide]
  · rw [happ, show queryOneline (parseQuery "oneline") = true from by decide]
  · rw [happ, show queryOneline (parseQuery "") = false from by decide]

/-- Claim C10, witness: the query-selection theorem applied to a concrete
commit source, with the membership equivalence instantiated at a concrete
query string. -/
theorem claim10_witness :
    ((apiHandler (fun _ => "") false "" (fun _ => Except.ok []) "r" "oneline=false").body =
      formatGitLog (fun _ => "") false [] true ∧
    (apiHandler (fun _ => "") false "" (fun _ => Except.ok []) "r" "oneline=").body =
      formatGitLog (fun _ => "") false [] true ∧
    (apiHandler (fun _ => "") false "" (fun _ => Except.ok []) "r" "oneline").body =
      formatGitLog (fun _ => "") false [] true ∧
    (apiHandler (fun _ => "") false "" (fun _ => Except.ok []) "r" "").body =
      formatGitLog (fun _ => "") false [] false) ∧
    (queryOneline (parseQuery "x=1&oneline=0") = true ↔
      "oneline" ∈ (parseQuery "x=1&oneline=0").map Prod.fst) := by
  have h := claim10_oneline_query (fun _ => "") false "" (fun _ => Except.ok []) "r" [] rfl
  exact ⟨⟨h.1, h.2.1, h.2.2.1, h.2.2.2.1⟩, h.2.2.2.2 "x=1&oneline=0"⟩
